import Mathlib

/-!
Shallow embedding of the one-ring task manager (TypeScript MCP server).

Sources embedded here:
- models (Zod schemas and interfaces): enums ProjectStatus, TaskStatus,
  Priority; Task, Project, PRD and friends; summary/report/filter shapes.
- StorageManager (src/utils/storage.ts): one JSON file per entity id under a
  projects/ or tasks/ directory; save validates then overwrites the record of
  the same id; get reads exactly the record of the requested id; list reads
  every record and sorts by the updated timestamp, descending; delete removes
  by id and reports whether the record existed; deleteProject cascades to the
  tasks returned by listTasks with the projectId filter.
- TaskManagerHandlers (handlers): listProjects / listTasks filtering,
  updateProject / updateTask merge semantics, decomposeTask, getProjectStatus.

Modelling conventions:
- Timestamps and due dates are the numeric time values the code obtains via
  new Date(s).getTime(); they are modelled as Nat. A missing or empty (hence
  falsy) dueDate string is modelled as none.
- JavaScript numbers (estimatedHours, actualHours, the completion percentage)
  are modelled as rationals.
- JavaScript truthiness on optional strings: undefined and the empty string
  are falsy, every other string is truthy (truthyStr below).
- The nullish coalescing operator a ?? b on optional fields is nullish below.
- Array.prototype.sort is a stable sort; it is modelled by the stable
  List.insertionSort with the relation induced by the code's comparator
  (descending updated for listings, ascending dueDate for deadlines); a
  stable sort's output is determined by the comparator, so this is faithful.
- The store directories hold at most one record per id (one file per id); the
  two directories are modelled as lists of typed records in directory order.
-/

namespace OneRing

inductive ProjectStatus
  | planning
  | in_progress
  | on_hold
  | completed
  | cancelled
deriving DecidableEq, Repr

inductive TaskStatus
  | todo
  | in_progress
  | blocked
  | review
  | done
  | cancelled
deriving DecidableEq, Repr

inductive Priority
  | low
  | medium
  | high
  | critical
deriving DecidableEq, Repr

abbrev Timestamp := Nat

structure Requirement where
  id : String
  title : String
  description : String
  priority : Priority
  acceptanceCriteria : List String
  tags : Option (List String) := none
deriving DecidableEq, Repr

structure Milestone where
  name : String
  date : String
  description : String
deriving DecidableEq, Repr

structure Timeline where
  startDate : Option String := none
  endDate : Option String := none
  milestones : Option (List Milestone) := none
deriving DecidableEq, Repr

structure RiskMitigation where
  risk : String
  mitigation : String
deriving DecidableEq, Repr

structure PRD where
  title : String
  overview : String
  problemStatement : String
  goals : List String
  requirements : List Requirement
  acceptanceCriteria : List String
  timeline : Timeline
  assumptions : Option (List String) := none
  constraints : Option (List String) := none
  risksAndMitigation : Option (List RiskMitigation) := none
deriving DecidableEq, Repr

structure Task where
  id : String
  projectId : String
  title : String
  description : String
  status : TaskStatus
  priority : Priority
  subtasks : Option (List String) := none
  dependencies : Option (List String) := none
  estimatedHours : Option ℚ := none
  actualHours : Option ℚ := none
  assignee : Option String := none
  tags : Option (List String) := none
  created : Timestamp
  updated : Timestamp
  dueDate : Option Nat := none
  notes : Option String := none
deriving DecidableEq, Repr

structure Project where
  id : String
  name : String
  description : String
  prd : PRD
  tasks : Option (List String) := none
  status : ProjectStatus
  created : Timestamp
  updated : Timestamp
  tags : Option (List String) := none
  repository : Option String := none
  documentation : Option String := none
deriving DecidableEq, Repr

structure ProjectSummary where
  id : String
  name : String
  description : String
  status : ProjectStatus
  taskCount : Nat
  completedTasks : Nat
  created : Timestamp
  updated : Timestamp
deriving DecidableEq, Repr

structure TaskSummary where
  id : String
  projectId : String
  title : String
  status : TaskStatus
  priority : Priority
  estimatedHours : Option ℚ
  actualHours : Option ℚ
  created : Timestamp
  updated : Timestamp
deriving DecidableEq, Repr

structure Deadline where
  taskId : String
  title : String
  dueDate : Nat
deriving DecidableEq, Repr

structure ProjectStatusReport where
  project : ProjectSummary
  tasks : List TaskSummary
  completionPercentage : ℚ
  totalEstimatedHours : ℚ
  totalActualHours : ℚ
  upcomingDeadlines : List Deadline
deriving DecidableEq, Repr

structure TaskFilter where
  projectId : Option String := none
  status : Option TaskStatus := none
  priority : Option Priority := none
  assignee : Option String := none
  tags : Option (List String) := none
deriving DecidableEq, Repr

structure ProjectFilter where
  status : Option ProjectStatus := none
  tags : Option (List String) := none
  hasRepository : Option Bool := none
deriving DecidableEq, Repr

/-- JavaScript truthiness of an optional string value: undefined and the
empty string are falsy, everything else is truthy. -/
def truthyStr : Option String → Bool
  | none => false
  | some s => !(s == "")

/-- JavaScript nullish coalescing a ?? b on two optional values. -/
def nullish {α : Type} : Option α → Option α → Option α
  | some v, _ => some v
  | none, b => b

/-- The check z.number() performs beyond typing: it accepts every numeric
value (the TaskSchema in models/index.ts attaches no nonnegative or min
refinement to estimatedHours or actualHours). -/
def zNumber (_q : ℚ) : Bool := true

/-- Field-by-field translation of TaskSchema.parse restricted to well-typed
candidates: strings, enums and string arrays carry no extra refinement, and
the two numeric fields use plain z.number(). -/
def TaskSchema.check (t : Task) : Bool :=
  (t.estimatedHours.all zNumber) && (t.actualHours.all zNumber)

/-- Field-by-field translation of ProjectSchema.parse restricted to
well-typed candidates: no field carries a refinement beyond its type. -/
def ProjectSchema.check (_p : Project) : Bool := true

/-! ### The record store

One JSON file per entity id; writing an id that already has a file replaces
it in place, writing a fresh id adds a file; reading fetches exactly the file
named after the id. -/

structure Store where
  projects : List Project
  tasks : List Task
deriving DecidableEq, Repr

/-- Write a record into a directory: replace the record carrying the same id
(the file of that name) or append a new record. -/
def putBy {α : Type} (key : α → String) (l : List α) (a : α) : List α :=
  if l.any (fun x => key x == key a) then
    l.map (fun x => if key x == key a then a else x)
  else
    l ++ [a]

/-- Read the record of a given id from a directory. -/
def findBy {α : Type} (key : α → String) (l : List α) (i : String) : Option α :=
  l.find? (fun x => key x == i)

instance decRelTaskUpdatedDesc :
    DecidableRel (fun a b : Task => b.updated ≤ a.updated) :=
  fun a b => Nat.decLe b.updated a.updated

instance decRelProjectUpdatedDesc :
    DecidableRel (fun a b : Project => b.updated ≤ a.updated) :=
  fun a b => Nat.decLe b.updated a.updated

instance decRelTaskDueAsc :
    DecidableRel (fun a b : Task => a.dueDate.getD 0 ≤ b.dueDate.getD 0) :=
  fun a b => Nat.decLe (a.dueDate.getD 0) (b.dueDate.getD 0)

instance totalTaskDueAsc :
    IsTotal Task (fun a b : Task => a.dueDate.getD 0 ≤ b.dueDate.getD 0) :=
  ⟨fun a b => Nat.le_total (a.dueDate.getD 0) (b.dueDate.getD 0)⟩

instance transTaskDueAsc :
    IsTrans Task (fun a b : Task => a.dueDate.getD 0 ≤ b.dueDate.getD 0) :=
  ⟨fun _ _ _ hab hbc => Nat.le_trans hab hbc⟩

/-- tasks.sort((a, b) => new Date(b.updated).getTime() - new Date(a.updated).getTime()) -/
def sortTasksByUpdatedDesc (l : List Task) : List Task :=
  List.insertionSort (fun a b => b.updated ≤ a.updated) l

/-- projects.sort((a, b) => new Date(b.updated).getTime() - new Date(a.updated).getTime()) -/
def sortProjectsByUpdatedDesc (l : List Project) : List Project :=
  List.insertionSort (fun a b => b.updated ≤ a.updated) l

/-- StorageManager.saveProject: ProjectSchema.parse (see ProjectSchema.check,
identically true on well-typed records) then write the record file. -/
def StorageManager.saveProject (s : Store) (p : Project) : Store :=
  { s with projects := putBy Project.id s.projects p }

/-- StorageManager.getProject: read the file named after the id; a missing
file (ENOENT) yields null. -/
def StorageManager.getProject (s : Store) (id : String) : Option Project :=
  findBy Project.id s.projects id

/-- StorageManager.saveTask: TaskSchema.parse (see TaskSchema.check,
identically true on well-typed records) then write the record file. -/
def StorageManager.saveTask (s : Store) (t : Task) : Store :=
  { s with tasks := putBy Task.id s.tasks t }

/-- StorageManager.getTask: read the file named after the id; a missing file
(ENOENT) yields null. -/
def StorageManager.getTask (s : Store) (id : String) : Option Task :=
  findBy Task.id s.tasks id

/-- The per-record condition of StorageManager.listTasks:
if (!filter.projectId || task.projectId === filter.projectId). -/
def storageTaskCond (projectId : Option String) (t : Task) : Bool :=
  !(truthyStr projectId) || (some t.projectId == projectId)

/-- StorageManager.listTasks: collect every task record that passes the
optional projectId condition, then sort descending by updated. -/
def StorageManager.listTasks (s : Store) (projectId : Option String := none) :
    List Task :=
  sortTasksByUpdatedDesc (s.tasks.filter (storageTaskCond projectId))

/-- StorageManager.listProjects: collect every project record, then sort
descending by updated. -/
def StorageManager.listProjects (s : Store) : List Project :=
  sortProjectsByUpdatedDesc s.projects

/-- StorageManager.deleteTask: unlink the file of the id; returns whether it
existed (ENOENT yields false). -/
def StorageManager.deleteTask (s : Store) (id : String) : Store × Bool :=
  if s.tasks.any (fun t => t.id == id) then
    ({ s with tasks := s.tasks.filter (fun t => !(t.id == id)) }, true)
  else
    (s, false)

/-- StorageManager.deleteProject: unlink the project file (ENOENT yields
false and nothing else happens); on success fetch the tasks of the project
through listTasks with the projectId filter and delete each one, then return
true. -/
def StorageManager.deleteProject (s : Store) (id : String) : Store × Bool :=
  if s.projects.any (fun p => p.id == id) then
    let s1 : Store := { s with projects := s.projects.filter (fun p => !(p.id == id)) }
    let victims := StorageManager.listTasks s1 (some id)
    let s2 := victims.foldl (fun st t => (StorageManager.deleteTask st t.id).1) s1
    (s2, true)
  else
    (s, false)

/-! ### Raw records

The listing loops read bytes, JSON.parse them and run the schema on each
file. A file whose bytes fail to parse or validate makes the parse call
throw; the only error the listing catches is ENOENT of the directory. A raw
record is either a good record (bytes that parse and validate into the typed
entity) or a corrupt one. -/

inductive Raw (α : Type)
  | good (a : α)
  | corrupt
deriving DecidableEq, Repr

/-- The listing loop over raw record files: each good record is parsed and
collected; the first corrupt record makes the schema parse throw, which
escapes the loop (the surrounding catch re-throws everything but ENOENT). -/
def parseRecords {α : Type} : List (Raw α) → Except String (List α)
  | [] => .ok []
  | .good a :: rest => (parseRecords rest).map (fun l => a :: l)
  | .corrupt :: _ => .error "ValidationError"

/-- StorageManager.listProjects at the raw-record level. -/
def listProjectsRaw (rs : List (Raw Project)) : Except String (List Project) :=
  (parseRecords rs).map sortProjectsByUpdatedDesc

/-- StorageManager.listTasks at the raw-record level. -/
def listTasksRaw (rs : List (Raw Task)) (projectId : Option String := none) :
    Except String (List Task) :=
  (parseRecords rs).map
    (fun l => sortTasksByUpdatedDesc (l.filter (storageTaskCond projectId)))

/-! ### Handlers -/

/-- The filter predicate of TaskManagerHandlers.listProjects. -/
def projectMatches (f : ProjectFilter) (p : Project) : Bool :=
  if f.status.isSome && !(some p.status == f.status) then false
  else if f.hasRepository.isSome
      && !(truthyStr p.repository == f.hasRepository.getD false) then false
  else if f.tags.isSome
      && !((f.tags.getD []).all (fun tag => (p.tags.getD []).contains tag)) then false
  else true

/-- The filter predicate of TaskManagerHandlers.listTasks. -/
def taskMatches (f : TaskFilter) (t : Task) : Bool :=
  if truthyStr f.projectId && !(some t.projectId == f.projectId) then false
  else if f.status.isSome && !(some t.status == f.status) then false
  else if f.priority.isSome && !(some t.priority == f.priority) then false
  else if truthyStr f.assignee && !(t.assignee == f.assignee) then false
  else if f.tags.isSome
      && !((f.tags.getD []).all (fun tag => (t.tags.getD []).contains tag)) then false
  else true

/-- The intermediate filtered collection of TaskManagerHandlers.listProjects. -/
def TaskManagerHandlers.listProjectsFiltered (s : Store) (f : ProjectFilter) :
    List Project :=
  (StorageManager.listProjects s).filter (projectMatches f)

/-- The intermediate filtered collection of TaskManagerHandlers.listTasks. -/
def TaskManagerHandlers.listTasksFiltered (s : Store) (f : TaskFilter) :
    List Task :=
  (StorageManager.listTasks s).filter (taskMatches f)

/-- The task-to-summary projection used by listTasks and getProjectStatus. -/
def taskToSummary (t : Task) : TaskSummary :=
  { id := t.id, projectId := t.projectId, title := t.title, status := t.status,
    priority := t.priority, estimatedHours := t.estimatedHours,
    actualHours := t.actualHours, created := t.created, updated := t.updated }

/-- The project-to-summary projection of listProjects: task counts come from
a live listTasks query with the projectId filter. -/
def projectToSummary (s : Store) (p : Project) : ProjectSummary :=
  let tasks := StorageManager.listTasks s (some p.id)
  { id := p.id, name := p.name, description := p.description, status := p.status,
    taskCount := tasks.length,
    completedTasks := (tasks.filter (fun t => t.status == TaskStatus.done)).length,
    created := p.created, updated := p.updated }

/-- TaskManagerHandlers.listProjects. -/
def TaskManagerHandlers.listProjects (s : Store) (f : ProjectFilter) :
    List ProjectSummary :=
  (TaskManagerHandlers.listProjectsFiltered s f).map (projectToSummary s)

/-- TaskManagerHandlers.listTasks. -/
def TaskManagerHandlers.listTasks (s : Store) (f : TaskFilter) :
    List TaskSummary :=
  (TaskManagerHandlers.listTasksFiltered s f).map taskToSummary

structure UpdateProjectArgs where
  id : String
  name : Option String := none
  description : Option String := none
  status : Option ProjectStatus := none
  tags : Option (List String) := none
  repository : Option String := none
deriving DecidableEq, Repr

/-- TaskManagerHandlers.updateProject: look the project up, return null when
absent; otherwise rebuild it with each supplied field taking precedence over the
stored one via the nullish operator, refresh updated, and save. -/
def TaskManagerHandlers.updateProject (s : Store) (args : UpdateProjectArgs)
    (now : Timestamp) : Store × Option Project :=
  match StorageManager.getProject s args.id with
  | none => (s, none)
  | some project =>
    let updated : Project := { project with
      name := args.name.getD project.name,
      description := args.description.getD project.description,
      status := args.status.getD project.status,
      tags := nullish args.tags project.tags,
      repository := nullish args.repository project.repository,
      updated := now }
    (StorageManager.saveProject s updated, some updated)

structure UpdateTaskArgs where
  id : String
  title : Option String := none
  description : Option String := none
  status : Option TaskStatus := none
  priority : Option Priority := none
  estimatedHours : Option ℚ := none
  actualHours : Option ℚ := none
  assignee : Option String := none
  notes : Option String := none
  dueDate : Option Nat := none
deriving DecidableEq, Repr

/-- TaskManagerHandlers.updateTask: look the task up, return null when
absent; otherwise rebuild it with each supplied field taking precedence over
the stored one via the nullish operator, refresh updated, and save. -/
def TaskManagerHandlers.updateTask (s : Store) (args : UpdateTaskArgs)
    (now : Timestamp) : Store × Option Task :=
  match StorageManager.getTask s args.id with
  | none => (s, none)
  | some task =>
    let updated : Task := { task with
      title := args.title.getD task.title,
      description := args.description.getD task.description,
      status := args.status.getD task.status,
      priority := args.priority.getD task.priority,
      estimatedHours := nullish args.estimatedHours task.estimatedHours,
      actualHours := nullish args.actualHours task.actualHours,
      assignee := nullish args.assignee task.assignee,
      notes := nullish args.notes task.notes,
      dueDate := nullish args.dueDate task.dueDate,
      updated := now }
    (StorageManager.saveTask s updated, some updated)

structure SubtaskSpec where
  title : String
  description : String
  priority : Priority
  estimatedHours : Option ℚ := none
deriving DecidableEq, Repr

/-- The subtask record decomposeTask builds for one specification, given the
generated id and timestamp. -/
def mkSubtask (parent : Task) (spec : SubtaskSpec) (id : String)
    (ts : Timestamp) : Task :=
  { id := id, projectId := parent.projectId, title := spec.title,
    description := spec.description, status := TaskStatus.todo,
    priority := spec.priority, subtasks := some [],
    dependencies := some [parent.id], estimatedHours := spec.estimatedHours,
    actualHours := some 0, assignee := parent.assignee, tags := parent.tags,
    created := ts, updated := ts, dueDate := none,
    notes := some ("Subtask of: " ++ parent.title) }

/-- The for-loop of decomposeTask: build each subtask from its specification
and the id and timestamp generated for it, save it, and push it onto the
accumulator. -/
def decomposeLoop (parent : Task) :
    Store → List Task → List (SubtaskSpec × String × Timestamp) → Store × List Task
  | s, acc, [] => (s, acc)
  | s, acc, trip :: rest =>
    let sub := mkSubtask parent trip.1 trip.2.1 trip.2.2
    decomposeLoop parent (StorageManager.saveTask s sub) (acc ++ [sub]) rest

/-- TaskManagerHandlers.decomposeTask. The ids and timestamps the storage
utilities generate inside the loop, and the timestamp taken for the parent
update, are passed in as arguments (ids, tss, parentTs); specification k
consumes ids[k] and tss[k]. After the loop the parent is re-saved with the
new child ids appended to its subtasks list and a refreshed updated stamp. -/
def TaskManagerHandlers.decomposeTask (s : Store) (taskId : String)
    (specs : List SubtaskSpec) (ids : List String) (tss : List Timestamp)
    (parentTs : Timestamp) : Except String (Store × List Task) :=
  match StorageManager.getTask s taskId with
  | none => .error "Parent task not found"
  | some parent =>
    let r := decomposeLoop parent s [] (specs.zip (ids.zip tss))
    let updatedParent : Task := { parent with
      subtasks := some ((parent.subtasks.getD []) ++ r.2.map Task.id),
      updated := parentTs }
    .ok (StorageManager.saveTask r.1 updatedParent, r.2)

/-- The deadline filter of getProjectStatus:
task.dueDate && task.status !== TaskStatus.DONE. -/
def deadlineCond (t : Task) : Bool :=
  t.dueDate.isSome && !(t.status == TaskStatus.done)

/-- TaskManagerHandlers.getProjectStatus. -/
def TaskManagerHandlers.getProjectStatus (s : Store) (id : String) :
    Option ProjectStatusReport :=
  match StorageManager.getProject s id with
  | none => none
  | some project =>
    let tasks := StorageManager.listTasks s (some id)
    let completedTasks := tasks.filter (fun t => t.status == TaskStatus.done)
    let upcomingDeadlines :=
      ((List.insertionSort
          (fun a b : Task => a.dueDate.getD 0 ≤ b.dueDate.getD 0)
          (tasks.filter deadlineCond)).take 5).map
        (fun t => { taskId := t.id, title := t.title,
                    dueDate := t.dueDate.getD 0 : Deadline })
    some
      { project :=
          { id := project.id, name := project.name,
            description := project.description, status := project.status,
            taskCount := tasks.length, completedTasks := completedTasks.length,
            created := project.created, updated := project.updated },
        tasks := tasks.map taskToSummary,
        completionPercentage :=
          if tasks.length > 0 then
            ((completedTasks.length : ℚ) / (tasks.length : ℚ)) * 100
          else 0,
        totalEstimatedHours :=
          tasks.foldl (fun sum t => sum + (t.estimatedHours.getD 0)) 0,
        totalActualHours :=
          tasks.foldl (fun sum t => sum + (t.actualHours.getD 0)) 0,
        upcomingDeadlines := upcomingDeadlines }

/-! ### Store lemmas -/

theorem find?_map_replace_ne {α : Type} (key : α → String) (a : α) (i : String)
    (hne : i ≠ key a) (l : List α) :
    (l.map (fun x => if key x == key a then a else x)).find? (fun x => key x == i)
      = l.find? (fun x => key x == i) := by
  induction l with
  | nil => rfl
  | cons x xs ih =>
    rw [List.map_cons]
    by_cases hx : key x = key a
    · have hb : (key x == key a) = true := by simp [hx]
      rw [if_pos hb]
      have h2 : (key a == i) = false := by simp [(Ne.symm hne)]
      have h3 : (key x == i) = false := by simp [hx, (Ne.symm hne)]
      simp only [List.find?_cons, h2, h3]
      exact ih
    · have hb : ¬((key x == key a) = true) := by simp [hx]
      rw [if_neg hb]
      by_cases hxi : key x = i
      · have h4 : (key x == i) = true := by simp [hxi]
        simp only [List.find?_cons, h4]
      · have h4 : (key x == i) = false := by simp [hxi]
        simp only [List.find?_cons, h4]
        exact ih

theorem find?_map_replace_self {α : Type} (key : α → String) (a : α) (l : List α)
    (h : l.any (fun x => key x == key a) = true) :
    (l.map (fun x => if key x == key a then a else x)).find? (fun x => key x == key a)
      = some a := by
  induction l with
  | nil => simp at h
  | cons x xs ih =>
    rw [List.map_cons]
    by_cases hx : key x = key a
    · have hb : (key x == key a) = true := by simp [hx]
      rw [if_pos hb]
      have h5 : (key a == key a) = true := by simp
      simp only [List.find?_cons, h5]
    · have hb : ¬((key x == key a) = true) := by simp [hx]
      rw [if_neg hb]
      have h1 : (key x == key a) = false := by simp [hx]
      simp only [List.any_cons, h1, Bool.false_or] at h
      simp only [List.find?_cons, h1]
      exact ih h

theorem findBy_putBy {α : Type} (key : α → String) (l : List α) (a : α) (i : String) :
    findBy key (putBy key l a) i
      = if i = key a then some a else findBy key l i := by
  unfold findBy putBy
  by_cases hany : l.any (fun x => key x == key a) = true
  · rw [if_pos hany]
    by_cases hi : i = key a
    · rw [if_pos hi]; subst hi; exact find?_map_replace_self key a l hany
    · rw [if_neg hi]; exact find?_map_replace_ne key a i hi l
  · rw [if_neg hany]
    simp only [List.any_eq_true, not_exists, not_and] at hany
    have hnone : l.find? (fun x => key x == key a) = none := by
      rw [List.find?_eq_none]; intro x hx; exact hany x hx
    rw [List.find?_append]
    by_cases hi : i = key a
    · subst hi
      rw [if_pos rfl, hnone]
      simp
    · rw [if_neg hi]
      have h4 : (key a == i) = false := by simp [(Ne.symm hi)]
      simp [List.find?, h4]

theorem getTask_saveTask (s : Store) (t : Task) (i : String) :
    StorageManager.getTask (StorageManager.saveTask s t) i
      = if i = t.id then some t else StorageManager.getTask s i := by
  unfold StorageManager.getTask StorageManager.saveTask
  exact findBy_putBy Task.id s.tasks t i

theorem getProject_saveProject (s : Store) (p : Project) (i : String) :
    StorageManager.getProject (StorageManager.saveProject s p) i
      = if i = p.id then some p else StorageManager.getProject s i := by
  unfold StorageManager.getProject StorageManager.saveProject
  exact findBy_putBy Project.id s.projects p i

/-! ### Concrete sample data used by witnesses and counterexamples -/

def demoPRD : PRD :=
  { title := "PRD", overview := "o", problemStatement := "ps",
    goals := [], requirements := [], acceptanceCriteria := [], timeline := {} }

def demoProject : Project :=
  { id := "p1", name := "Alpha", description := "d", prd := demoPRD,
    tasks := some [], status := ProjectStatus.planning, created := 1,
    updated := 1, tags := some ["a", "b"], repository := some "" }

def demoTask : Task :=
  { id := "t1", projectId := "p1", title := "T1", description := "d",
    status := TaskStatus.todo, priority := Priority.medium,
    subtasks := some [], dependencies := some [], estimatedHours := some 8,
    actualHours := some 0, assignee := some "ann", tags := some ["a", "b"],
    created := 1, updated := 2, dueDate := some 10, notes := some "" }

def demoStore : Store := { projects := [demoProject], tasks := [demoTask] }

/-- A second task that carries only tag a. -/
def demoTask2 : Task :=
  { id := "t2", projectId := "p1", title := "T2", description := "d",
    status := TaskStatus.in_progress, priority := Priority.high,
    subtasks := some [], dependencies := some [], estimatedHours := some 3,
    actualHours := some 1, assignee := some "bob", tags := some ["a"],
    created := 3, updated := 4, dueDate := some 7, notes := some "" }

def demoStore2 : Store :=
  { projects := [demoProject], tasks := [demoTask, demoTask2] }

/-- A storable project whose id is the empty string (the schema places no
constraint on id beyond being a string, so the store accepts it). -/
def emptyIdProject : Project :=
  { id := "", name := "E", description := "", prd := demoPRD,
    status := ProjectStatus.planning, created := 0, updated := 0 }

/-- A completed task belonging to a different project. -/
def strayDoneTask : Task :=
  { id := "s1", projectId := "other", title := "S", description := "",
    status := TaskStatus.done, priority := Priority.low,
    created := 0, updated := 0 }

/-- A pending task with a due date belonging to a different project. -/
def strayDueTask : Task :=
  { id := "s2", projectId := "other", title := "S2", description := "",
    status := TaskStatus.todo, priority := Priority.low,
    created := 0, updated := 0, dueDate := some 5 }

def cexStore : Store := { projects := [emptyIdProject], tasks := [strayDoneTask] }

def cexStore8 : Store := { projects := [emptyIdProject], tasks := [strayDueTask] }

def cSpec : SubtaskSpec :=
  { title := "sub1", description := "d", priority := Priority.medium,
    estimatedHours := some 2 }

def cSpec2 : SubtaskSpec :=
  { title := "sub2", description := "d", priority := Priority.low }

/-- A parent task that has already been decomposed once: its subtasks list
is non-empty. -/
def seasonedParent : Task :=
  { id := "t3", projectId := "p1", title := "T3", description := "d",
    status := TaskStatus.todo, priority := Priority.low,
    subtasks := some ["old"], created := 1, updated := 1 }

def cexStore3 : Store := { projects := [demoProject], tasks := [seasonedParent] }

/-- A well-typed task whose hour fields are negative numbers. -/
def negTask : Task :=
  { id := "neg", projectId := "p1", title := "N", description := "d",
    status := TaskStatus.todo, priority := Priority.low,
    estimatedHours := some (-1), actualHours := some (-2),
    created := 1, updated := 1 }

/-! ### Claims -/

/-- C9 counterexample: a candidate Task whose estimatedHours and actualHours
are negative passes TaskSchema validation (the schema uses plain z.number()
with no nonnegativity refinement), and saveTask persists it instead of
failing with a ValidationError. -/
theorem claim_C9_counterexample :
    negTask.estimatedHours = some (-1) ∧ negTask.actualHours = some (-2) ∧
    TaskSchema.check negTask = true ∧
    StorageManager.getTask (StorageManager.saveTask demoStore negTask) "neg"
      = some negTask := by
  refine ⟨rfl, rfl, rfl, ?_⟩
  decide

/-- C9 amended: estimatedHours and actualHours carry no sign constraint at
the store boundary: every well-typed Task, negative hours included, passes
TaskSchema validation, and saveTask persists it so that getTask returns it. -/
theorem claim_C9_amended (t : Task) (s : Store) :
    TaskSchema.check t = true ∧
    StorageManager.getTask (StorageManager.saveTask s t) t.id = some t := by
  constructor
  · unfold TaskSchema.check zNumber
    cases t.estimatedHours <;> cases t.actualHours <;> rfl
  · rw [getTask_saveTask]
    simp

/-- The listing loop surfaces an error as soon as the directory holds a
corrupt record. -/
theorem parseRecords_error {α : Type} (rs : List (Raw α))
    (h : Raw.corrupt ∈ rs) : parseRecords rs = .error "ValidationError" := by
  induction rs with
  | nil => cases h
  | cons r rest ih =>
    cases r with
    | corrupt => rfl
    | good a =>
      rcases List.mem_cons.mp h with h1 | h2
      · cases h1
      · show (parseRecords rest).map (fun l => a :: l) = _
        rw [ih h2]
        rfl

/-- The listing loop returns exactly the parsed records, in directory order,
when every record is good. -/
theorem parseRecords_ok {α : Type} (rs : List (Raw α))
    (h : ∀ r ∈ rs, r ≠ Raw.corrupt) :
    ∃ l, parseRecords rs = .ok l ∧ rs = l.map Raw.good := by
  induction rs with
  | nil => exact ⟨[], rfl, rfl⟩
  | cons r rest ih =>
    cases r with
    | corrupt => exact absurd rfl (h Raw.corrupt (List.mem_cons_self _ _))
    | good a =>
      obtain ⟨l, hok, hmap⟩ := ih (fun r hr => h r (List.mem_cons_of_mem _ hr))
      refine ⟨a :: l, ?_, ?_⟩
      · show (parseRecords rest).map (fun l => a :: l) = _
        rw [hok]
        rfl
      · rw [List.map_cons, ← hmap]

/-- C5 counterexample: one corrupt record aborts the whole listing. With a
directory holding one well-formed record and one corrupt record, both
listProjects and listTasks surface the validation error instead of skipping
the corrupt file and returning the remaining record. -/
theorem claim_C5_counterexample :
    listProjectsRaw [Raw.good demoProject, Raw.corrupt]
        = .error "ValidationError" ∧
    listTasksRaw [Raw.good demoTask, Raw.corrupt] none
        = .error "ValidationError" ∧
    listProjectsRaw [Raw.good demoProject, Raw.corrupt]
        ≠ .ok [demoProject] := by
  refine ⟨rfl, rfl, ?_⟩
  intro h
  cases h

/-- C5 amended: a stored record that fails to parse or validate during
listing is not skipped: the listing aborts with the validation error and
returns no records at all; only when every stored record is well formed does
list return the full collection of that kind. -/
theorem claim_C5_amended (rs : List (Raw Project)) (rt : List (Raw Task))
    (pid : Option String) :
    (Raw.corrupt ∈ rs → listProjectsRaw rs = .error "ValidationError") ∧
    ((∀ r ∈ rs, r ≠ Raw.corrupt) → ∃ l, parseRecords rs = .ok l ∧
        rs = l.map Raw.good ∧
        listProjectsRaw rs = .ok (sortProjectsByUpdatedDesc l)) ∧
    (Raw.corrupt ∈ rt → listTasksRaw rt pid = .error "ValidationError") ∧
    ((∀ r ∈ rt, r ≠ Raw.corrupt) → ∃ l, parseRecords rt = .ok l ∧
        rt = l.map Raw.good ∧
        listTasksRaw rt pid
          = .ok (sortTasksByUpdatedDesc (l.filter (storageTaskCond pid)))) := by
  refine ⟨?_, ?_, ?_, ?_⟩
  · intro h
    unfold listProjectsRaw
    rw [parseRecords_error rs h]
    rfl
  · intro h
    obtain ⟨l, hok, hmap⟩ := parseRecords_ok rs h
    refine ⟨l, hok, hmap, ?_⟩
    unfold listProjectsRaw
    rw [hok]
    rfl
  · intro h
    unfold listTasksRaw
    rw [parseRecords_error rt h]
    rfl
  · intro h
    obtain ⟨l, hok, hmap⟩ := parseRecords_ok rt h
    refine ⟨l, hok, hmap, ?_⟩
    unfold listTasksRaw
    rw [hok]
    rfl

/-- C5 witness: the amended behavior on concrete directories: an all-good
directory lists its record, a directory holding a corrupt task record
surfaces the error. -/
theorem claim_C5_amended_witness :
    listTasksRaw [Raw.corrupt] none = .error "ValidationError" ∧
    ∃ l, parseRecords [Raw.good demoProject] = .ok l ∧
      [Raw.good demoProject] = l.map Raw.good ∧
      listProjectsRaw [Raw.good demoProject]
        = .ok (sortProjectsByUpdatedDesc l) := by
  have h := claim_C5_amended [Raw.good demoProject] [Raw.corrupt] none
  exact ⟨h.2.2.1 (List.mem_singleton.mpr rfl), h.2.1 (by decide)⟩

/-- C10: the hasRepository filter of listProjects tests the repository field
by JavaScript truthiness, not by presence. A project whose repository is the
empty string behaves exactly like one with no repository field: it is
excluded when the filter asks hasRepository = true (and never appears in the
filtered listing), passes the repository test when hasRepository = false,
and when the filter omits hasRepository the repository value imposes no
constraint at all. -/
theorem claim_C10 (f : ProjectFilter) (p : Project) (s : Store) :
    (p.repository = some "" →
      projectMatches f p = projectMatches f { p with repository := none }) ∧
    (p.repository = some "" → f.hasRepository = some true →
      projectMatches f p = false ∧
      p ∉ TaskManagerHandlers.listProjectsFiltered s f) ∧
    (p.repository = some "" → f.hasRepository = some false →
      projectMatches f p
        = projectMatches { f with hasRepository := none } p) ∧
    (f.hasRepository = none → ∀ r : Option String,
      projectMatches f { p with repository := r } = projectMatches f p) := by
  have hts : truthyStr (some "") = false := rfl
  refine ⟨?_, ?_, ?_, ?_⟩
  · intro hrepo
    simp [projectMatches, hrepo, hts, truthyStr]
  · intro hrepo hhas
    have hm : projectMatches f p = false := by
      simp [projectMatches, hrepo, hhas, hts]
    refine ⟨hm, ?_⟩
    intro hmem
    have := (List.mem_filter.mp hmem).2
    rw [hm] at this
    cases this
  · intro hrepo hhas
    simp [projectMatches, hrepo, hhas, hts]
  · intro hhas r
    simp [projectMatches, hhas]

/-- C10 witness: the demo project stores repository = some "" and is
excluded by a hasRepository = true filter. -/
theorem claim_C10_witness :
    projectMatches { hasRepository := some true } demoProject = false ∧
    demoProject ∉ TaskManagerHandlers.listProjectsFiltered demoStore
      { hasRepository := some true } :=
  (claim_C10 { hasRepository := some true } demoProject demoStore).2.1 rfl rfl

/-- A task that passes the listTasks filter with a tags filter present
carries every filter tag. -/
theorem taskMatches_tags_all (f : TaskFilter) (t : Task) (ts : List String)
    (htags : f.tags = some ts) (h : taskMatches f t = true) :
    ∀ tag ∈ ts, tag ∈ t.tags.getD [] := by
  unfold taskMatches at h
  split at h
  · cases h
  split at h
  · cases h
  split at h
  · cases h
  split at h
  · cases h
  split at h
  · cases h
  next h5 =>
    rw [htags] at h5
    simp [List.all_eq_true] at h5
    exact h5

/-- A project that passes the listProjects filter with a tags filter present
carries every filter tag. -/
theorem projectMatches_tags_all (g : ProjectFilter) (p : Project)
    (ts : List String) (htags : g.tags = some ts)
    (h : projectMatches g p = true) :
    ∀ tag ∈ ts, tag ∈ p.tags.getD [] := by
  unfold projectMatches at h
  split at h
  · cases h
  split at h
  · cases h
  split at h
  · cases h
  next h3 =>
    rw [htags] at h3
    simp [List.all_eq_true] at h3
    exact h3

/-- C7: the tags filter of listProjects and listTasks is a logical AND over
the filter tags. Every entity surviving the filter carries every filter tag;
an entity missing any one filter tag is excluded; and both the filter tag
collection and the entity tag collection matter only up to membership, so
insertion order of either collection is irrelevant. -/
theorem claim_C7 (s : Store) (f : TaskFilter) (g : ProjectFilter)
    (ts : List String) :
    (f.tags = some ts →
      ∀ t ∈ TaskManagerHandlers.listTasksFiltered s f,
        ∀ tag ∈ ts, tag ∈ t.tags.getD []) ∧
    (f.tags = some ts → ∀ t ∈ s.tasks,
      (∃ tag ∈ ts, tag ∉ t.tags.getD []) →
        t ∉ TaskManagerHandlers.listTasksFiltered s f) ∧
    (g.tags = some ts →
      ∀ p ∈ TaskManagerHandlers.listProjectsFiltered s g,
        ∀ tag ∈ ts, tag ∈ p.tags.getD []) ∧
    (g.tags = some ts → ∀ p ∈ s.projects,
      (∃ tag ∈ ts, tag ∉ p.tags.getD []) →
        p ∉ TaskManagerHandlers.listProjectsFiltered s g) ∧
    (∀ ts2 : List String, ts.Perm ts2 →
      (∀ t : Task, taskMatches { f with tags := some ts } t
          = taskMatches { f with tags := some ts2 } t) ∧
      (∀ p : Project, projectMatches { g with tags := some ts } p
          = projectMatches { g with tags := some ts2 } p)) ∧
    (∀ l1 l2 : List String, l1.Perm l2 →
      (∀ t : Task, taskMatches f { t with tags := some l1 }
          = taskMatches f { t with tags := some l2 }) ∧
      (∀ p : Project, projectMatches g { p with tags := some l1 }
          = projectMatches g { p with tags := some l2 })) := by
  refine ⟨?_, ?_, ?_, ?_, ?_, ?_⟩
  · intro htags t hmem
    exact taskMatches_tags_all f t ts htags (List.mem_filter.mp hmem).2
  · intro htags t _ hmiss hmem
    obtain ⟨tag, htag, hnot⟩ := hmiss
    exact hnot
      (taskMatches_tags_all f t ts htags (List.mem_filter.mp hmem).2 tag htag)
  · intro htags p hmem
    exact projectMatches_tags_all g p ts htags (List.mem_filter.mp hmem).2
  · intro htags p _ hmiss hmem
    obtain ⟨tag, htag, hnot⟩ := hmiss
    exact hnot
      (projectMatches_tags_all g p ts htags (List.mem_filter.mp hmem).2 tag htag)
  · intro ts2 hperm
    constructor
    · intro t
      have hall : (ts.all fun tag => (t.tags.getD []).contains tag)
          = (ts2.all fun tag => (t.tags.getD []).contains tag) := by
        rw [Bool.eq_iff_iff]
        simp [List.all_eq_true, hperm.mem_iff]
      simp only [taskMatches]
      dsimp only
      simp only [Option.getD_some, Option.isSome_some]
      simp only [hall]
    · intro p
      have hall : (ts.all fun tag => (p.tags.getD []).contains tag)
          = (ts2.all fun tag => (p.tags.getD []).contains tag) := by
        rw [Bool.eq_iff_iff]
        simp [List.all_eq_true, hperm.mem_iff]
      simp only [projectMatches]
      dsimp only
      simp only [Option.getD_some, Option.isSome_some]
      simp only [hall]
  · intro l1 l2 hperm
    have hc : ∀ tag : String, l1.contains tag = l2.contains tag := by
      intro tag
      rw [Bool.eq_iff_iff]
      simp [hperm.mem_iff]
    constructor
    · intro t
      simp only [taskMatches]
      dsimp only
      simp only [Option.getD_some]
      simp only [hc]
    · intro p
      simp only [projectMatches]
      dsimp only
      simp only [Option.getD_some]
      simp only [hc]

/-- C7 witness: a task carrying only tag a is excluded by the filter tags
a, b evaluated on a concrete store, and the filter tag order is
irrelevant for the demo task. -/
theorem claim_C7_witness :
    demoTask2 ∉ TaskManagerHandlers.listTasksFiltered demoStore2
        { tags := some ["a", "b"] } ∧
    taskMatches { tags := some ["a", "b"] } demoTask
      = taskMatches { tags := some ["b", "a"] } demoTask := by
  have h := claim_C7 demoStore2 { tags := some ["a", "b"] }
    { tags := some ["a", "b"] } ["a", "b"]
  refine ⟨h.2.1 rfl demoTask2 (by decide) ⟨"b", by decide, by decide⟩, ?_⟩
  exact (h.2.2.2.2.1 ["b", "a"] (by decide)).1 demoTask

/-- Deleting a task id filters the task directory and touches nothing else. -/
theorem deleteTask_fst_tasks (s : Store) (id : String) :
    (StorageManager.deleteTask s id).1.tasks
      = s.tasks.filter (fun t => !(t.id == id)) := by
  unfold StorageManager.deleteTask
  by_cases h : s.tasks.any (fun t => t.id == id) = true
  · rw [if_pos h]
  · rw [if_neg h]
    simp only [List.any_eq_true, not_exists, not_and] at h
    have : ∀ t ∈ s.tasks, (!(t.id == id)) = true := by
      intro t ht
      simp [Bool.not_eq_true]
      intro he
      exact absurd (by simp [he]) (h t ht)
    exact (List.filter_eq_self.mpr this).symm

theorem deleteTask_fst_projects (s : Store) (id : String) :
    (StorageManager.deleteTask s id).1.projects = s.projects := by
  unfold StorageManager.deleteTask
  by_cases h : s.tasks.any (fun t => t.id == id) = true
  · rw [if_pos h]
  · rw [if_neg h]

/-- Deleting every task of a victim list in turn removes exactly the tasks
whose id appears among the victims. -/
theorem foldl_deleteTask_tasks (victims : List Task) (s : Store) :
    (victims.foldl (fun st t => (StorageManager.deleteTask st t.id).1) s).tasks
      = s.tasks.filter (fun t => !(victims.any (fun v => v.id == t.id))) := by
  induction victims generalizing s with
  | nil => simp
  | cons v vs ih =>
    rw [List.foldl_cons, ih, deleteTask_fst_tasks, List.filter_filter]
    apply List.filter_congr
    intro t _
    by_cases h : t.id = v.id
    · simp [h]
    · have h1 : (t.id == v.id) = false := by simp [h]
      have h2 : (v.id == t.id) = false := by simp [Ne.symm h]
      simp [h1, h2]

theorem foldl_deleteTask_projects (victims : List Task) (s : Store) :
    (victims.foldl (fun st t => (StorageManager.deleteTask st t.id).1) s).projects
      = s.projects := by
  induction victims generalizing s with
  | nil => rfl
  | cons v vs ih =>
    rw [List.foldl_cons, ih, deleteTask_fst_projects]

/-- C6: deleteProject returns whether the project existed. When it did not,
the store is untouched and the result is false. When it did, the result is
true, the project record is gone, every task whose projectId equals the
deleted id is removed, and listTasks with that projectId filter afterwards
returns the empty sequence. -/
theorem claim_C6 (s : Store) (P : String) :
    (StorageManager.getProject s P = none →
      StorageManager.deleteProject s P = (s, false)) ∧
    (∀ p : Project, StorageManager.getProject s P = some p →
      (StorageManager.deleteProject s P).2 = true ∧
      StorageManager.getProject (StorageManager.deleteProject s P).1 P = none ∧
      (∀ t ∈ (StorageManager.deleteProject s P).1.tasks, t.projectId ≠ P) ∧
      StorageManager.listTasks (StorageManager.deleteProject s P).1 (some P)
        = []) := by
  constructor
  · intro h
    unfold StorageManager.getProject findBy at h
    rw [List.find?_eq_none] at h
    have hany : ¬(s.projects.any (fun p => p.id == P) = true) := by
      rw [List.any_eq_true]
      rintro ⟨p, hp, hpid⟩
      exact h p hp hpid
    unfold StorageManager.deleteProject
    rw [if_neg hany]
  · intro p h
    unfold StorageManager.getProject findBy at h
    have hpred := List.find?_some h
    have hmem : p ∈ s.projects := List.mem_of_find?_eq_some h
    have hany : s.projects.any (fun q => q.id == P) = true :=
      List.any_eq_true.mpr ⟨p, hmem, hpred⟩
    have hdel : StorageManager.deleteProject s P
        = (((StorageManager.listTasks
              { s with projects := s.projects.filter (fun q => !(q.id == P)) }
              (some P)).foldl
            (fun st t => (StorageManager.deleteTask st t.id).1)
            { s with projects := s.projects.filter (fun q => !(q.id == P)) }),
           true) := by
      unfold StorageManager.deleteProject
      rw [if_pos hany]
    set s1 : Store :=
      { s with projects := s.projects.filter (fun q => !(q.id == P)) } with hs1
    set victims := StorageManager.listTasks s1 (some P) with hvic
    have htasks : (StorageManager.deleteProject s P).1.tasks
        = s1.tasks.filter (fun t => !(victims.any (fun v => v.id == t.id))) := by
      rw [hdel]
      exact foldl_deleteTask_tasks victims s1
    have hcond : ∀ t ∈ (StorageManager.deleteProject s P).1.tasks,
        storageTaskCond (some P) t = false := by
      intro t ht
      rw [htasks] at ht
      have hsplit := List.mem_filter.mp ht
      by_contra hcnd
      rw [Bool.not_eq_false] at hcnd
      have htv : t ∈ victims := by
        rw [hvic]
        unfold StorageManager.listTasks sortTasksByUpdatedDesc
        rw [(List.perm_insertionSort _ _).mem_iff]
        exact List.mem_filter.mpr ⟨hsplit.1, hcnd⟩
      have : victims.any (fun v => v.id == t.id) = true :=
        List.any_eq_true.mpr ⟨t, htv, by simp⟩
      rw [this] at hsplit
      cases hsplit.2
    refine ⟨by rw [hdel], ?_, ?_, ?_⟩
    · have hproj : (StorageManager.deleteProject s P).1.projects
          = s.projects.filter (fun q => !(q.id == P)) := by
        rw [hdel]
        exact foldl_deleteTask_projects victims s1
      unfold StorageManager.getProject findBy
      rw [hproj, List.find?_eq_none]
      intro q hq
      have := (List.mem_filter.mp hq).2
      simp only [Bool.not_eq_true'] at this
      rw [this]
      exact Bool.false_ne_true
    · intro t ht hpid
      have := hcond t ht
      unfold storageTaskCond at this
      rw [Bool.or_eq_false_iff] at this
      have h2 := this.2
      rw [hpid] at h2
      simp at h2
    · unfold StorageManager.listTasks
      have : (StorageManager.deleteProject s P).1.tasks.filter
          (storageTaskCond (some P)) = [] := by
        rw [List.filter_eq_nil_iff]
        intro t ht
        rw [hcond t ht]
        exact Bool.false_ne_true
      rw [this]
      rfl

/-- C6 witness: deleting the demo project reports true, removes the project
record, and leaves no task of that project behind. -/
theorem claim_C6_witness :
    (StorageManager.deleteProject demoStore2 "p1").2 = true ∧
    StorageManager.getProject (StorageManager.deleteProject demoStore2 "p1").1
      "p1" = none ∧
    StorageManager.listTasks (StorageManager.deleteProject demoStore2 "p1").1
      (some "p1") = [] := by
  obtain ⟨h1, h2, -, h4⟩ :=
    (claim_C6 demoStore2 "p1").2 demoProject (by decide)
  exact ⟨h1, h2, h4⟩

/-- With a non-empty projectId filter the storage listing condition is
exactly equality on projectId. -/
theorem storageTaskCond_of_ne (P : String) (hP : P ≠ "") (t : Task) :
    storageTaskCond (some P) t = (t.projectId == P) := by
  have ht : truthyStr (some P) = true := by
    unfold truthyStr
    simp [hP]
  unfold storageTaskCond
  rw [ht]
  rw [Bool.eq_iff_iff]
  simp

/-- For a non-empty project id the storage task listing is a permutation of
the stored tasks of that project. -/
theorem listTasks_perm_filter (s : Store) (P : String) (hP : P ≠ "") :
    (StorageManager.listTasks s (some P)).Perm
      (s.tasks.filter (fun t => t.projectId == P)) := by
  unfold StorageManager.listTasks sortTasksByUpdatedDesc
  have hcg : s.tasks.filter (storageTaskCond (some P))
      = s.tasks.filter (fun t => t.projectId == P) :=
    List.filter_congr (fun t _ => storageTaskCond_of_ne P hP t)
  rw [hcg]
  exact List.perm_insertionSort _ _

/-- C1 counterexample: the claim fails for a project whose id is the empty
string. The storage listTasks filter tests filter.projectId by truthiness,
so for id = "" it returns every stored task: the store below has zero tasks
with projectId = "" yet getProjectStatus reports completionPercentage 100
(from a foreign completed task) instead of the 0 the claim requires at
taskCount = 0. -/
theorem claim_C1_counterexample :
    StorageManager.getProject cexStore "" = some emptyIdProject ∧
    (cexStore.tasks.filter (fun t => t.projectId == "")).length = 0 ∧
    (TaskManagerHandlers.getProjectStatus cexStore "").map
      ProjectStatusReport.completionPercentage = some 100 := by
  refine ⟨rfl, rfl, ?_⟩
  have hlist : StorageManager.listTasks cexStore (some "") = [strayDoneTask] := by
    decide
  unfold TaskManagerHandlers.getProjectStatus
  rw [show StorageManager.getProject cexStore "" = some emptyIdProject from rfl]
  dsimp only
  rw [hlist]
  norm_num [strayDoneTask]

/-- C1 amended: for every non-empty project id P that exists,
getProjectStatus returns a report whose completionPercentage is exactly 0
when the project has no tasks and 100 * completedTasks / taskCount
otherwise, where taskCount counts the stored tasks with projectId = P and
completedTasks counts those with status done; the value always lies in
the interval from 0 to 100. -/
theorem claim_C1_amended (s : Store) (P : String) (proj : Project)
    (hP : P ≠ "")
    (h : StorageManager.getProject s P = some proj) :
    ∃ rep, TaskManagerHandlers.getProjectStatus s P = some rep ∧
      rep.completionPercentage =
        (if (s.tasks.filter (fun t => t.projectId == P)).length = 0 then 0
         else 100 * ((s.tasks.filter (fun t => t.projectId == P
                && (t.status == TaskStatus.done))).length : ℚ)
              / ((s.tasks.filter (fun t => t.projectId == P)).length : ℚ)) ∧
      0 ≤ rep.completionPercentage ∧ rep.completionPercentage ≤ 100 := by
  have hperm := listTasks_perm_filter s P hP
  have hlen := hperm.length_eq
  have hdone : ((StorageManager.listTasks s (some P)).filter
        (fun t => t.status == TaskStatus.done)).length
      = (s.tasks.filter (fun t => t.projectId == P
            && (t.status == TaskStatus.done))).length := by
    rw [(hperm.filter (fun t => t.status == TaskStatus.done)).length_eq,
      List.filter_filter]
    congr 1
    apply List.filter_congr
    intro a _
    rw [Bool.and_comm]
  have hle : ((StorageManager.listTasks s (some P)).filter
        (fun t => t.status == TaskStatus.done)).length
      ≤ (StorageManager.listTasks s (some P)).length :=
    List.length_filter_le _ _
  unfold TaskManagerHandlers.getProjectStatus
  rw [h]
  refine ⟨_, rfl, ?_, ?_, ?_⟩
  · dsimp only
    rw [← hlen, ← hdone]
    by_cases h0 : (StorageManager.listTasks s (some P)).length = 0
    · simp [h0]
    · have hpos : 0 < (StorageManager.listTasks s (some P)).length :=
        Nat.pos_of_ne_zero h0
      rw [if_pos hpos, if_neg h0, div_mul_eq_mul_div, mul_comm]
  · dsimp only
    by_cases hpos : 0 < (StorageManager.listTasks s (some P)).length
    · rw [if_pos hpos]
      positivity
    · rw [if_neg hpos]
  · dsimp only
    by_cases hpos : 0 < (StorageManager.listTasks s (some P)).length
    · rw [if_pos hpos]
      have hq : (0 : ℚ) < ((StorageManager.listTasks s (some P)).length : ℚ) := by
        exact_mod_cast hpos
      have hcn : (((StorageManager.listTasks s (some P)).filter
            (fun t => t.status == TaskStatus.done)).length : ℚ)
          ≤ ((StorageManager.listTasks s (some P)).length : ℚ) := by
        exact_mod_cast hle
      have h1 : (((StorageManager.listTasks s (some P)).filter
            (fun t => t.status == TaskStatus.done)).length : ℚ)
          / ((StorageManager.listTasks s (some P)).length : ℚ) ≤ 1 :=
        (div_le_one hq).mpr hcn
      nlinarith [h1]
    · rw [if_neg hpos]
      norm_num

/-- C1 witness: the amended statement evaluated on a concrete store: project
p1 has two tasks, none done, so the completion percentage is 0, inside the
bounds. -/
theorem claim_C1_witness :
    ∃ rep, TaskManagerHandlers.getProjectStatus demoStore2 "p1" = some rep ∧
      rep.completionPercentage =
        (if (demoStore2.tasks.filter (fun t => t.projectId == "p1")).length = 0
         then 0
         else 100 * ((demoStore2.tasks.filter (fun t => t.projectId == "p1"
                && (t.status == TaskStatus.done))).length : ℚ)
              / ((demoStore2.tasks.filter
                    (fun t => t.projectId == "p1")).length : ℚ)) ∧
      0 ≤ rep.completionPercentage ∧ rep.completionPercentage ≤ 100 :=
  claim_C1_amended demoStore2 "p1" demoProject (by decide) (by decide)

/-- C8 counterexample: the claim fails for a project whose id is the empty
string: the storage listTasks filter tests the id by truthiness, so the
report for project "" includes deadlines of another project's tasks even
though no stored task has projectId = "". -/
theorem claim_C8_counterexample :
    StorageManager.getProject cexStore8 "" = some emptyIdProject ∧
    (cexStore8.tasks.filter
        (fun t => t.projectId == "" && deadlineCond t)).length = 0 ∧
    (TaskManagerHandlers.getProjectStatus cexStore8 "").map
      ProjectStatusReport.upcomingDeadlines
      = some [{ taskId := "s2", title := "S2", dueDate := 5 }] := by
  refine ⟨rfl, rfl, ?_⟩
  decide

/-- C8 amended: for every existing project with a non-empty id, the
upcomingDeadlines field of getProjectStatus holds exactly the tasks of the
project that have a due date and are not done: it is sorted ascending by
dueDate, holds at most 5 entries (exactly min 5 of the candidate count),
every entry is the taskId, title, dueDate triple of such a task, and when
the candidates number at most 5 it is a permutation of all of their
triples. -/
theorem claim_C8_amended (s : Store) (P : String) (proj : Project)
    (hP : P ≠ "")
    (h : StorageManager.getProject s P = some proj) :
    ∃ rep, TaskManagerHandlers.getProjectStatus s P = some rep ∧
      rep.upcomingDeadlines.length
        = min 5 ((s.tasks.filter
            (fun t => t.projectId == P && deadlineCond t)).length) ∧
      List.Pairwise (fun d e : Deadline => d.dueDate ≤ e.dueDate)
        rep.upcomingDeadlines ∧
      (∀ d ∈ rep.upcomingDeadlines, ∃ t, t ∈ s.tasks ∧ t.projectId = P ∧
        t.dueDate = some d.dueDate ∧ t.status ≠ TaskStatus.done ∧
        d.taskId = t.id ∧ d.title = t.title) ∧
      ((s.tasks.filter
          (fun t => t.projectId == P && deadlineCond t)).length ≤ 5 →
        rep.upcomingDeadlines.Perm
          ((s.tasks.filter (fun t => t.projectId == P && deadlineCond t)).map
            (fun t => { taskId := t.id, title := t.title,
                        dueDate := t.dueDate.getD 0 : Deadline }))) := by
  have hperm := listTasks_perm_filter s P hP
  have hpermF : ((StorageManager.listTasks s (some P)).filter
        deadlineCond).Perm
      (s.tasks.filter (fun t => t.projectId == P && deadlineCond t)) := by
    have h1 := hperm.filter deadlineCond
    rw [List.filter_filter] at h1
    have h2 : s.tasks.filter (fun a => deadlineCond a && (a.projectId == P))
        = s.tasks.filter (fun t => t.projectId == P && deadlineCond t) :=
      List.filter_congr (fun a _ => by rw [Bool.and_comm])
    rw [h2] at h1
    exact h1
  have hsortperm := List.perm_insertionSort
    (fun a b : Task => a.dueDate.getD 0 ≤ b.dueDate.getD 0)
    ((StorageManager.listTasks s (some P)).filter deadlineCond)
  have hsorted := List.sorted_insertionSort
    (fun a b : Task => a.dueDate.getD 0 ≤ b.dueDate.getD 0)
    ((StorageManager.listTasks s (some P)).filter deadlineCond)
  unfold TaskManagerHandlers.getProjectStatus
  rw [h]
  refine ⟨_, rfl, ?_, ?_, ?_, ?_⟩
  · dsimp only
    rw [List.length_map, List.length_take, hsortperm.length_eq,
      hpermF.length_eq]
  · dsimp only
    refine List.Pairwise.map _ (fun a b hab => hab) ?_
    exact List.Pairwise.sublist (List.take_sublist 5 _) hsorted
  · dsimp only
    intro d hd
    rw [List.mem_map] at hd
    obtain ⟨t, ht5, rfl⟩ := hd
    have hts : t ∈ List.insertionSort
        (fun a b : Task => a.dueDate.getD 0 ≤ b.dueDate.getD 0)
        ((StorageManager.listTasks s (some P)).filter deadlineCond) :=
      List.take_subset 5 _ ht5
    have htF := hsortperm.mem_iff.mp hts
    have htparts := List.mem_filter.mp htF
    have htlist := hperm.mem_iff.mp htparts.1
    have htstore := List.mem_filter.mp htlist
    have hpid : t.projectId = P := by
      have := htstore.2
      simpa using this
    have hdl := htparts.2
    unfold deadlineCond at hdl
    rw [Bool.and_eq_true] at hdl
    obtain ⟨n, hn⟩ := Option.isSome_iff_exists.mp hdl.1
    have hst : t.status ≠ TaskStatus.done := by
      have := hdl.2
      simp only [Bool.not_eq_true'] at this
      intro he
      rw [he] at this
      simp at this
    exact ⟨t, htstore.1, hpid, by rw [hn]; rfl, hst, rfl, rfl⟩
  · dsimp only
    intro hle5
    have hslen : (List.insertionSort
        (fun a b : Task => a.dueDate.getD 0 ≤ b.dueDate.getD 0)
        ((StorageManager.listTasks s (some P)).filter deadlineCond)).length
        ≤ 5 := by
      rw [hsortperm.length_eq, hpermF.length_eq]
      exact hle5
    rw [List.take_of_length_le hslen]
    exact (hsortperm.map _).trans (hpermF.map _)

/-- C8 witness: the amended statement on a concrete store: project p1 has
two pending tasks with due dates, so the report lists both deadlines in
ascending order. -/
theorem claim_C8_witness :
    ∃ rep, TaskManagerHandlers.getProjectStatus demoStore2 "p1" = some rep ∧
      rep.upcomingDeadlines.length = 2 ∧
      List.Pairwise (fun d e : Deadline => d.dueDate ≤ e.dueDate)
        rep.upcomingDeadlines := by
  obtain ⟨rep, h1, h2, h3, -, -⟩ :=
    claim_C8_amended demoStore2 "p1" demoProject (by decide) (by decide)
  exact ⟨rep, h1, h2.trans (by decide), h3⟩

/-- The decomposition loop saves the built subtasks left to right and
returns them appended to the accumulator in specification order. -/
theorem decomposeLoop_eq (parent : Task) (s : Store) (acc : List Task)
    (trips : List (SubtaskSpec × String × Timestamp)) :
    decomposeLoop parent s acc trips
      = ((trips.map (fun tr => mkSubtask parent tr.1 tr.2.1 tr.2.2)).foldl
           StorageManager.saveTask s,
         acc ++ trips.map (fun tr => mkSubtask parent tr.1 tr.2.1 tr.2.2)) := by
  induction trips generalizing s acc with
  | nil => simp [decomposeLoop]
  | cons tr rest ih =>
    simp only [decomposeLoop, List.map_cons, List.foldl_cons, ih,
      List.append_assoc, List.singleton_append]

/-- Saving a batch of tasks does not disturb records with other ids. -/
theorem getTask_foldl_notmem (l : List Task) (s : Store) (i : String)
    (h : ∀ t ∈ l, t.id ≠ i) :
    StorageManager.getTask (l.foldl StorageManager.saveTask s) i
      = StorageManager.getTask s i := by
  induction l generalizing s with
  | nil => rfl
  | cons t rest ih =>
    rw [List.foldl_cons, ih _ (fun u hu => h u (List.mem_cons_of_mem _ hu)),
      getTask_saveTask, if_neg]
    exact fun he => h t (List.mem_cons_self _ _) he.symm

/-- After saving a batch of tasks with pairwise distinct ids, each one can be
read back. -/
theorem getTask_foldl_mem (l : List Task) (hnd : (l.map Task.id).Nodup)
    (t : Task) (ht : t ∈ l) (s : Store) :
    StorageManager.getTask (l.foldl StorageManager.saveTask s) t.id = some t := by
  induction l generalizing s with
  | nil => cases ht
  | cons x rest ih =>
    rw [List.foldl_cons]
    rw [List.map_cons, List.nodup_cons] at hnd
    rcases List.mem_cons.mp ht with h1 | h2
    · subst h1
      rw [getTask_foldl_notmem _ _ _
          (fun u hu he => hnd.1 (by rw [← he]; exact List.mem_map_of_mem Task.id hu)),
        getTask_saveTask, if_pos rfl]
    · exact ih hnd.2 h2 _

/-- The generated ids consumed by the decomposition loop are exactly the
supplied id list, provided enough of each were supplied. -/
theorem zip3_map_id (specs : List SubtaskSpec) (ids : List String)
    (tss : List Timestamp) (h1 : ids.length = specs.length)
    (h2 : tss.length = specs.length) :
    (specs.zip (ids.zip tss)).map (fun tr => tr.2.1) = ids := by
  have hlen : (ids.zip tss).length ≤ specs.length := by
    rw [List.length_zip]
    omega
  calc (specs.zip (ids.zip tss)).map (fun tr => tr.2.1)
      = ((specs.zip (ids.zip tss)).map Prod.snd).map Prod.fst := by
        rw [List.map_map]
        rfl
    _ = (ids.zip tss).map Prod.fst := by rw [List.map_snd_zip _ _ hlen]
    _ = ids := List.map_fst_zip _ _ (by omega)

/-- Core facts about a successful decomposition: the result shape, the final
parent record, and its refreshed subtasks list. -/
theorem decomposeTask_ok (s : Store) (taskId : String)
    (specs : List SubtaskSpec) (ids : List String) (tss : List Timestamp)
    (parentTs : Timestamp)
    (hlen1 : ids.length = specs.length) (hlen2 : tss.length = specs.length)
    (parent : Task) (h : StorageManager.getTask s taskId = some parent) :
    ∃ s2 p2,
      TaskManagerHandlers.decomposeTask s taskId specs ids tss parentTs
        = .ok (s2,
            (specs.zip (ids.zip tss)).map
              (fun tr => mkSubtask parent tr.1 tr.2.1 tr.2.2)) ∧
      s2 = StorageManager.saveTask
          (((specs.zip (ids.zip tss)).map
              (fun tr => mkSubtask parent tr.1 tr.2.1 tr.2.2)).foldl
            StorageManager.saveTask s) p2 ∧
      StorageManager.getTask s2 taskId = some p2 ∧
      p2.subtasks = some ((parent.subtasks.getD []) ++ ids) ∧
      p2.updated = parentTs ∧ p2.id = taskId := by
  have hpid : parent.id = taskId := by
    unfold StorageManager.getTask findBy at h
    have := List.find?_some h
    simpa using this
  unfold TaskManagerHandlers.decomposeTask
  rw [h]
  dsimp only
  rw [decomposeLoop_eq]
  dsimp only
  rw [List.nil_append]
  refine ⟨_, _, rfl, rfl, ?_, ?_, rfl, ?_⟩
  · rw [getTask_saveTask, if_pos]
    dsimp only
    exact hpid.symm
  · dsimp only
    rw [List.map_map]
    rw [show ((specs.zip (ids.zip tss)).map (Task.id ∘
        fun tr => mkSubtask parent tr.1 tr.2.1 tr.2.2))
      = (specs.zip (ids.zip tss)).map (fun tr => tr.2.1) from rfl]
    rw [zip3_map_id specs ids tss hlen1 hlen2]
  · dsimp only
    exact hpid

/-- C2: decomposeTask fails with the NotFound error when the parent does not
exist; otherwise it creates one subtask per specification in input order,
each persisted under its freshly generated id with projectId inherited from
the parent, status todo, dependencies equal to the singleton parent id,
assignee and tags snapshot-copied from the parent, notes referencing the
parent's title, and created = updated = its generated timestamp; the call
returns the new subtasks in specification order. The freshness of the
generated ids is the hypothesis that they are pairwise distinct and distinct
from the parent id, and one id and timestamp is supplied per
specification. -/
theorem claim_C2 (s : Store) (taskId : String) (specs : List SubtaskSpec)
    (ids : List String) (tss : List Timestamp) (parentTs : Timestamp)
    (hlen1 : ids.length = specs.length) (hlen2 : tss.length = specs.length)
    (hnodup : ids.Nodup) (hfresh : taskId ∉ ids) :
    (StorageManager.getTask s taskId = none →
      TaskManagerHandlers.decomposeTask s taskId specs ids tss parentTs
        = .error "Parent task not found") ∧
    (∀ parent, StorageManager.getTask s taskId = some parent →
      ∃ s2 subs,
        TaskManagerHandlers.decomposeTask s taskId specs ids tss parentTs
          = .ok (s2, subs) ∧
        subs.length = specs.length ∧
        (∀ (i : Nat) (spec : SubtaskSpec), specs[i]? = some spec →
          ∃ sub : Task, subs[i]? = some sub ∧
            ids[i]? = some sub.id ∧ tss[i]? = some sub.created ∧
            sub.updated = sub.created ∧
            sub.projectId = parent.projectId ∧
            sub.status = TaskStatus.todo ∧
            sub.dependencies = some [taskId] ∧
            sub.assignee = parent.assignee ∧ sub.tags = parent.tags ∧
            sub.notes = some ("Subtask of: " ++ parent.title) ∧
            sub.title = spec.title ∧ sub.description = spec.description ∧
            sub.priority = spec.priority ∧
            sub.estimatedHours = spec.estimatedHours ∧
            StorageManager.getTask s2 sub.id = some sub)) := by
  constructor
  · intro h
    unfold TaskManagerHandlers.decomposeTask
    rw [h]
  · intro parent h
    have hpid : parent.id = taskId := by
      unfold StorageManager.getTask findBy at h
      have := List.find?_some h
      simpa using this
    obtain ⟨s2, p2, hcall, hs2, hget2, hsub2, hupd2, hid2⟩ :=
      decomposeTask_ok s taskId specs ids tss parentTs hlen1 hlen2 parent h
    have hmapid : ((specs.zip (ids.zip tss)).map
        (fun tr => mkSubtask parent tr.1 tr.2.1 tr.2.2)).map Task.id = ids := by
      rw [List.map_map]
      exact zip3_map_id specs ids tss hlen1 hlen2
    refine ⟨s2, _, hcall, ?_, ?_⟩
    · rw [List.length_map, List.length_zip, List.length_zip]
      omega
    · intro i spec hspec
      have hi : i < specs.length := (List.getElem?_eq_some.mp hspec).1
      have hbi : i < ids.length := by omega
      have hbt : i < tss.length := by omega
      have hids : ids[i]? = some ids[i] := List.getElem?_eq_getElem hbi
      have htss : tss[i]? = some tss[i] := List.getElem?_eq_getElem hbt
      have hzip2 : (ids.zip tss)[i]? = some (ids[i], tss[i]) :=
        List.getElem?_zip_eq_some.mpr ⟨hids, htss⟩
      have hzip3 : (specs.zip (ids.zip tss))[i]? = some (spec, ids[i], tss[i]) :=
        List.getElem?_zip_eq_some.mpr ⟨hspec, hzip2⟩
      refine ⟨mkSubtask parent spec ids[i] tss[i], ?_, hids, htss,
        rfl, rfl, rfl, ?_, rfl, rfl, rfl, rfl, rfl, rfl, rfl, ?_⟩
      · rw [List.getElem?_map, hzip3]
        rfl
      · unfold mkSubtask
        rw [hpid]
      · have hmem : mkSubtask parent spec ids[i] tss[i]
            ∈ (specs.zip (ids.zip tss)).map
              (fun tr => mkSubtask parent tr.1 tr.2.1 tr.2.2) := by
          have hz : (spec, ids[i], tss[i]) ∈ specs.zip (ids.zip tss) := by
            obtain ⟨hlt, he⟩ := List.getElem?_eq_some.mp hzip3
            exact he ▸ List.getElem_mem hlt
          exact List.mem_map_of_mem _ hz
        have hnd : (((specs.zip (ids.zip tss)).map
            (fun tr => mkSubtask parent tr.1 tr.2.1 tr.2.2)).map Task.id).Nodup := by
          rw [hmapid]
          exact hnodup
        have hidmem : (mkSubtask parent spec ids[i] tss[i]).id ∈ ids := by
          show ids[i] ∈ ids
          exact List.getElem_mem hbi
        rw [hs2, getTask_saveTask, if_neg]
        · exact getTask_foldl_mem _ hnd _ hmem s
        · rw [hid2]
          intro he
          exact hfresh (he ▸ hidmem)

/-- C2 witness: decomposing the demo task with one specification on a
concrete store creates one persisted subtask depending on the parent. -/
theorem claim_C2_witness :
    ∃ s2 subs,
      TaskManagerHandlers.decomposeTask demoStore "t1" [cSpec] ["n1"] [5] 6
        = .ok (s2, subs) ∧
      subs.length = 1 ∧
      ∃ sub : Task, subs[0]? = some sub ∧ sub.dependencies = some ["t1"] ∧
        sub.notes = some ("Subtask of: " ++ demoTask.title) ∧
        StorageManager.getTask s2 sub.id = some sub := by
  obtain ⟨s2, subs, hcall, hlen, hidx⟩ :=
    (claim_C2 demoStore "t1" [cSpec] ["n1"] [5] 6 rfl rfl (by decide)
      (by decide)).2 demoTask (by decide)
  obtain ⟨sub, h1, -, -, -, -, -, hdep, -, -, hnotes, -, -, -, -, hget⟩ :=
    hidx 0 cSpec rfl
  exact ⟨s2, subs, hcall, hlen, sub, h1, hdep, hnotes, hget⟩

/-- C3 counterexample: on a parent that already holds one child id, two
decompositions of one specification each leave the parent with three
subtask ids, not the two the claim (sum of both calls' subtask counts)
demands. -/
theorem claim_C3_counterexample :
    ∃ s2 subs1 s3 subs2 p3,
      TaskManagerHandlers.decomposeTask cexStore3 "t3" [cSpec] ["n1"] [5] 6
        = .ok (s2, subs1) ∧
      TaskManagerHandlers.decomposeTask s2 "t3" [cSpec2] ["n2"] [7] 8
        = .ok (s3, subs2) ∧
      subs1.length = 1 ∧ subs2.length = 1 ∧
      StorageManager.getTask s3 "t3" = some p3 ∧
      (p3.subtasks.getD []).length = 3 ∧
      (p3.subtasks.getD []).length ≠ subs1.length + subs2.length := by
  refine ⟨_, _, _, _, _, rfl, rfl, rfl, rfl, rfl, rfl, by decide⟩

/-- C3 amended: decomposeTask is append-only on the parent's subtasks field:
each call leaves the parent's subtasks equal to its previous list with the
new child ids appended and refreshes updated; two consecutive calls append
first the first call's ids and then the second call's ids after the prior
list, so when the parent started with no subtasks the final length is the
sum of both calls' subtask counts. -/
theorem claim_C3 (s : Store) (taskId : String)
    (specs1 : List SubtaskSpec) (ids1 : List String) (tss1 : List Timestamp)
    (ts1 : Timestamp) (specs2 : List SubtaskSpec) (ids2 : List String)
    (tss2 : List Timestamp) (ts2 : Timestamp)
    (hlen1 : ids1.length = specs1.length)
    (hlen1t : tss1.length = specs1.length)
    (hlen2 : ids2.length = specs2.length)
    (hlen2t : tss2.length = specs2.length)
    (parent : Task) (h : StorageManager.getTask s taskId = some parent) :
    ∃ s2 subs1 p2,
      TaskManagerHandlers.decomposeTask s taskId specs1 ids1 tss1 ts1
        = .ok (s2, subs1) ∧
      StorageManager.getTask s2 taskId = some p2 ∧
      p2.subtasks = some ((parent.subtasks.getD []) ++ ids1) ∧
      p2.updated = ts1 ∧
      ∃ s3 subs2 p3,
        TaskManagerHandlers.decomposeTask s2 taskId specs2 ids2 tss2 ts2
          = .ok (s3, subs2) ∧
        StorageManager.getTask s3 taskId = some p3 ∧
        p3.subtasks = some (((parent.subtasks.getD []) ++ ids1) ++ ids2) ∧
        p3.updated = ts2 ∧
        (parent.subtasks = some [] ∨ parent.subtasks = none →
          (p3.subtasks.getD []).length = specs1.length + specs2.length) := by
  obtain ⟨s2, p2, hcall1, hs2eq, hget2, hsub2, hupd2, hid2⟩ :=
    decomposeTask_ok s taskId specs1 ids1 tss1 ts1 hlen1 hlen1t parent h
  obtain ⟨s3, p3, hcall2, hs3eq, hget3, hsub3, hupd3, hid3⟩ :=
    decomposeTask_ok s2 taskId specs2 ids2 tss2 ts2 hlen2 hlen2t p2 hget2
  refine ⟨s2, _, p2, hcall1, hget2, hsub2, hupd2,
    s3, _, p3, hcall2, hget3, ?_, hupd3, ?_⟩
  · rw [hsub3, hsub2, Option.getD_some]
  · intro hempty
    have hold : parent.subtasks.getD [] = [] := by
      rcases hempty with he | he <;> rw [he] <;> rfl
    rw [hsub3, Option.getD_some, hsub2, Option.getD_some, hold]
    simp [hlen1, hlen2]

/-- C3 witness: two decompositions of the demo task (whose subtasks list
starts empty) leave its subtasks equal to the two new ids in call order,
with length the sum of the two calls' counts. -/
theorem claim_C3_witness :
    ∃ s2 subs1 p2,
      TaskManagerHandlers.decomposeTask demoStore "t1" [cSpec] ["n1"] [5] 6
        = .ok (s2, subs1) ∧
      StorageManager.getTask s2 "t1" = some p2 ∧
      p2.subtasks = some (((demoTask.subtasks).getD []) ++ ["n1"]) ∧
      ∃ s3 subs2 p3,
        TaskManagerHandlers.decomposeTask s2 "t1" [cSpec2] ["n2"] [7] 8
          = .ok (s3, subs2) ∧
        StorageManager.getTask s3 "t1" = some p3 ∧
        (p3.subtasks.getD []).length = 1 + 1 := by
  obtain ⟨s2, subs1, p2, h1, h2, h3, -, s3, subs2, p3, h5, h6, -, -, h9⟩ :=
    claim_C3 demoStore "t1" [cSpec] ["n1"] [5] 6 [cSpec2] ["n2"] [7] 8
      rfl rfl rfl rfl demoTask (by decide)
  exact ⟨s2, subs1, p2, h1, h2, h3, s3, subs2, p3, h5, h6, h9 (Or.inl rfl)⟩

/-- C4: updateTask and updateProject follow merge semantics. On a missing id
they return NotFound with the store untouched. On an existing record the
result is the stored record with exactly the supplied fields replaced and
the updated stamp set to the current timestamp; id and created are never
overwritten and every omitted field keeps its stored value. -/
theorem claim_C4 (s : Store) (now : Timestamp) (ta : UpdateTaskArgs)
    (pa : UpdateProjectArgs) :
    (StorageManager.getTask s ta.id = none →
      TaskManagerHandlers.updateTask s ta now = (s, none)) ∧
    (∀ t : Task, StorageManager.getTask s ta.id = some t →
      ∃ u : Task,
        TaskManagerHandlers.updateTask s ta now
          = (StorageManager.saveTask s u, some u) ∧
        u.id = t.id ∧ u.created = t.created ∧ u.updated = now ∧
        u.projectId = t.projectId ∧ u.subtasks = t.subtasks ∧
        u.dependencies = t.dependencies ∧ u.tags = t.tags ∧
        (ta.title = none → u.title = t.title) ∧
        (ta.description = none → u.description = t.description) ∧
        (ta.status = none → u.status = t.status) ∧
        (ta.priority = none → u.priority = t.priority) ∧
        (ta.estimatedHours = none → u.estimatedHours = t.estimatedHours) ∧
        (ta.actualHours = none → u.actualHours = t.actualHours) ∧
        (ta.assignee = none → u.assignee = t.assignee) ∧
        (ta.notes = none → u.notes = t.notes) ∧
        (ta.dueDate = none → u.dueDate = t.dueDate)) ∧
    (StorageManager.getProject s pa.id = none →
      TaskManagerHandlers.updateProject s pa now = (s, none)) ∧
    (∀ p : Project, StorageManager.getProject s pa.id = some p →
      ∃ u : Project,
        TaskManagerHandlers.updateProject s pa now
          = (StorageManager.saveProject s u, some u) ∧
        u.id = p.id ∧ u.created = p.created ∧ u.updated = now ∧
        u.prd = p.prd ∧ u.tasks = p.tasks ∧ u.documentation = p.documentation ∧
        (pa.name = none → u.name = p.name) ∧
        (pa.description = none → u.description = p.description) ∧
        (pa.status = none → u.status = p.status) ∧
        (pa.tags = none → u.tags = p.tags) ∧
        (pa.repository = none → u.repository = p.repository)) := by
  refine ⟨?_, ?_, ?_, ?_⟩
  · intro h
    unfold TaskManagerHandlers.updateTask
    rw [h]
  · intro t h
    unfold TaskManagerHandlers.updateTask
    rw [h]
    refine ⟨_, rfl, rfl, rfl, rfl, rfl, rfl, rfl, rfl, ?_, ?_, ?_, ?_, ?_, ?_, ?_, ?_, ?_⟩ <;>
      (intro hn; simp [hn, nullish])
  · intro h
    unfold TaskManagerHandlers.updateProject
    rw [h]
  · intro p h
    unfold TaskManagerHandlers.updateProject
    rw [h]
    refine ⟨_, rfl, rfl, rfl, rfl, rfl, rfl, rfl, ?_, ?_, ?_, ?_, ?_⟩ <;>
      (intro hn; simp [hn, nullish])

/-- C4 witness: merge semantics evaluated on concrete data: updating task t1
with only a status refreshes updated, keeps id, created and title, and a
project update for an unknown id leaves the store unchanged. -/
theorem claim_C4_witness :
    (∃ u : Task,
      TaskManagerHandlers.updateTask demoStore
          { id := "t1", status := some TaskStatus.done } 9
        = (StorageManager.saveTask demoStore u, some u) ∧
      u.id = "t1" ∧ u.created = 1 ∧ u.updated = 9 ∧ u.title = "T1") ∧
    TaskManagerHandlers.updateProject demoStore { id := "nope" } 9
      = (demoStore, none) := by
  have h := claim_C4 demoStore 9 { id := "t1", status := some TaskStatus.done }
    { id := "nope" }
  constructor
  · obtain ⟨u, heq, hid, hcre, hupd, -, -, -, -, htitle, -⟩ :=
      h.2.1 demoTask (by decide)
    exact ⟨u, heq, hid.trans rfl, hcre.trans rfl, hupd, (htitle rfl).trans rfl⟩
  · exact h.2.2.1 (by decide)

end OneRing
